import Mathlib

/-!
Verification of the EverythingBatchSearch batch pipeline
(`everything_batch.py`): a shallow embedding of `search_single_file`,
`EverythingSearcher.read_input_file`, `EverythingSearcher.process_file`
and `EverythingSearcher.process_files`, together with the Windows path
helpers (`ntpath.splitdrive`, `ntpath.join`, `ntpath.split`) they call.

External effects are modelled by oracles: the `es.exe` subprocess call
is a function from a filename to a `ProviderResult`; `re.compile` is a
function from a pattern to an optional matcher (`none` models
`re.error`); completion order of pool futures is an explicit list of
future indices; per-file action success is a predicate on the future
index.  Machine strings are Lean `String`s (Python 3 strings are
unicode, as are Lean's).
-/

namespace EverythingBatch

/-- Python truthiness of an optional string (`if s:`): `None` and the
empty string are falsy. -/
def truthyS : Option String → Bool
  | none => false
  | some s => s != ""

/-- Whitespace characters removed by Python's `str.strip()` (the ASCII
ones; the inputs of this program are filenames and provider output). -/
def isPySpace (c : Char) : Bool :=
  c == ' ' || c == '\t' || c == '\n' || c == '\r' || c == '\x0B' || c == '\x0C'

/-- Embedding of Python `str.strip()`: drop leading and trailing
whitespace. -/
def pyStrip (s : String) : String :=
  String.mk (((s.toList.dropWhile isPySpace).reverse.dropWhile isPySpace).reverse)

/-- Helper for `pySplitlines`: the accumulator holds the current line
reversed. -/
def pySplitlinesAux : List Char → List Char → List String
  | [], acc => if acc.isEmpty then [] else [String.mk acc.reverse]
  | '\r' :: '\n' :: rest, acc => String.mk acc.reverse :: pySplitlinesAux rest []
  | '\n' :: rest, acc => String.mk acc.reverse :: pySplitlinesAux rest []
  | '\r' :: rest, acc => String.mk acc.reverse :: pySplitlinesAux rest []
  | c :: rest, acc => pySplitlinesAux rest (c :: acc)

/-- Embedding of Python `str.splitlines()` for the line boundaries the
program meets: `\n`, `\r\n` and `\r`.  A trailing newline does not
produce an extra empty line. -/
def pySplitlines (s : String) : List String :=
  pySplitlinesAux s.toList []

/-- The list comprehension `[line.strip() for line in text.splitlines()
if line.strip()]` used by `read_input_file` (and, with the provider
output, by `search_single_file`). -/
def stripNonBlankLines (text : String) : List String :=
  ((pySplitlines text).map pyStrip).filter (fun s => s != "")

/-- Outcome of one `subprocess.run(['es.exe', ...])` invocation:
either a raised exception (`exn`, e.g. `FileNotFoundError`) or a
completed process with an exit code and captured stdout. -/
inductive ProviderResult where
  | exn
  | ok (returncode : Int) (stdout : String)
deriving DecidableEq

/-- Embedding of `search_single_file(filename, regex_pattern)`.
`compile` models `re.compile`: `none` is `re.error`, `some rx` is a
compiled regex whose `search` truthiness on a path is `rx path`.
`res` is the outcome of the single `es.exe -full-path-and-name
filename` invocation. -/
def search_single_file (compile : String → Option (String → Bool))
    (filename : String) (regex_pattern : Option String)
    (res : ProviderResult) : List (String × String) :=
  match res with
  | .exn => []
  | .ok rc out =>
    if rc = 0 then
      let paths := stripNonBlankLines out
      if truthyS regex_pattern then
        match compile (regex_pattern.getD "") with
        | some regex => (paths.filter (fun path => regex path)).map (fun path => (filename, path))
        | none => []
      else
        paths.map (fun path => (filename, path))
    else []

/-- A Windows path separator as recognised by `ntpath` (`\` or `/`). -/
def isSep (c : Char) : Bool :=
  c == '\\' || c == '/'

/-- Embedding of `os.path.splitdrive` (Windows `ntpath.splitdrive`):
split off a `X:` drive or a `\\server\share` UNC root. -/
def splitdrive (p : String) : String × String :=
  let cs := p.toList
  if cs.length ≥ 2 then
    let normp := cs.map (fun c => if c == '/' then '\\' else c)
    if normp.take 2 == ['\\', '\\'] && normp.getD 2 'x' != '\\' then
      match (normp.drop 2).findIdx? (· == '\\') with
      | none => ("", p)
      | some j =>
        let index := 2 + j
        match (normp.drop (index + 1)).findIdx? (· == '\\') with
        | some 0 => ("", p)
        | some j2 =>
          let index2 := index + 1 + j2
          (String.mk (cs.take index2), String.mk (cs.drop index2))
        | none => (String.mk cs, "")
    else if normp.getD 1 'x' == ':' then
      (String.mk (cs.take 2), String.mk (cs.drop 2))
    else ("", p)
  else ("", p)

/-- Embedding of `source_path.lstrip(os.sep)` with `os.sep = '\\'`. -/
def lstripBackslash (s : String) : String :=
  String.mk (s.toList.dropWhile (· == '\\'))

/-- Last character of a string, with a default. -/
def lastCharD (s : String) (d : Char) : Char :=
  s.toList.getLastD d

/-- Embedding of the two-argument `os.path.join` (Windows
`ntpath.join`). -/
def ntJoin (path p : String) : String :=
  let rd0 := (splitdrive path).1
  let rp0 := (splitdrive path).2
  let pd := (splitdrive p).1
  let pp := (splitdrive p).2
  let rdrp :=
    if pp != "" && isSep (pp.toList.headD 'x') then
      (if pd != "" || rd0 == "" then pd else rd0, pp)
    else if pd != "" && pd != rd0 then
      if pd.toLower != rd0.toLower then (pd, pp)
      else
        (pd, (if rp0 != "" && !isSep (lastCharD rp0 'x') then rp0 ++ "\\" else rp0) ++ pp)
    else
      (rd0, (if rp0 != "" && !isSep (lastCharD rp0 'x') then rp0 ++ "\\" else rp0) ++ pp)
  let rd := rdrp.1
  let rp := rdrp.2
  if rp != "" && !isSep (rp.toList.headD 'x') && rd != "" && lastCharD rd 'x' != ':' then
    rd ++ "\\" ++ rp
  else
    rd ++ rp

/-- Drop trailing path separators from a character list. -/
def rstripSeps (s : List Char) : List Char :=
  (s.reverse.dropWhile isSep).reverse

/-- Embedding of `os.path.split` (Windows `ntpath.split`): split into
`(head, tail)` around the last separator of the drive-less part. -/
def ntSplit (p : String) : String × String :=
  let dr := splitdrive p
  let cs := dr.2.toList
  let i := match cs.reverse.findIdx? isSep with
    | some j => cs.length - j
    | none => 0
  let head := cs.take i
  let tail := cs.drop i
  let head2 := rstripSeps head
  let head3 := if head2.isEmpty then head else head2
  (dr.1 ++ String.mk head3, String.mk tail)

/-- Embedding of `os.path.dirname`. -/
def ntDirname (p : String) : String :=
  (ntSplit p).1

/-- Embedding of `os.path.basename`. -/
def ntBasename (p : String) : String :=
  (ntSplit p).2

/-- A `(requested filename, absolute source path)` pair produced by the
search stage. -/
abbrev FoundFile := String × String

/-- A filesystem operation performed by `process_file`. -/
inductive FsAction where
  | remove (path : String)
  | makedirs (path : String)
  | copy2 (src dest : String)
  | move (src dest : String)
deriving DecidableEq

/-- The `EverythingSearcher` constructor arguments that drive the
pipeline (the run configuration). -/
structure Config where
  input_file : Option String := none
  input_text : Option String := none
  copy_path : Option String := none
  move_path : Option String := none
  match_folder_structure : Bool := true
  delete_mode : Bool := false
  regex_filter : Option String := none

/-- Embedding of `EverythingSearcher.process_file` as the sequence of
filesystem operations it performs, in program order, on the execution
in which no operation raises.  In `delete_mode` the function removes
the source and returns at once, before the copy and move branches; the
exception handler (returning `False`) cuts this sequence short but
never adds to it. -/
def process_file_actions (cfg : Config) (file_info : FoundFile) : List FsAction :=
  let filename := file_info.1
  let source_path := file_info.2
  if cfg.delete_mode then
    [.remove source_path]
  else
    (if truthyS cfg.copy_path then
      let root := cfg.copy_path.getD ""
      if cfg.match_folder_structure then
        let rel_path := lstripBackslash (splitdrive source_path).2
        let dest_dir := ntJoin root rel_path
        [.makedirs (ntDirname dest_dir), .copy2 source_path dest_dir]
      else
        [.copy2 source_path (ntJoin root filename)]
    else []) ++
    (if truthyS cfg.move_path then
      let root := cfg.move_path.getD ""
      if cfg.match_folder_structure then
        let rel_path := lstripBackslash (splitdrive source_path).2
        let dest_dir := ntJoin root rel_path
        [.makedirs (ntDirname dest_dir), .move source_path dest_dir]
      else
        [.move source_path (ntJoin root filename)]
    else [])

/-- Embedding of `EverythingSearcher.read_input_file`.  `readFile`
models opening and reading `input_file`; `none` is a raised exception
(logged, and an empty list is returned). -/
def read_input_file (cfg : Config) (readFile : String → Option String) : List String :=
  if truthyS cfg.input_text then
    stripNonBlankLines (cfg.input_text.getD "")
  else if !truthyS cfg.input_file then
    []
  else
    match readFile (cfg.input_file.getD "") with
    | some content => stripNonBlankLines content
    | none => []

/-- Embedding of the `as_completed` bookkeeping loop of the action
stage of `process_files`, started at completion count `k`.  `order`
lists the indices of the submitted futures in completion order; future
`i` processes `found_files[i]` and `result i` is its boolean result.
Each completed future appends `found_files[processed_count - 1]` —
the entry at the current completion COUNT, not the entry the completed
future processed — to `processed_files` (on `True`) or `failed_files`
(on `False`). -/
def recordOutcomesFrom (found : List FoundFile) (result : Nat → Bool) :
    Nat → List Nat → List FoundFile × List FoundFile
  | _, [] => ([], [])
  | k, i :: rest =>
    if result i then
      (found.getD k ("", "") :: (recordOutcomesFrom found result (k + 1) rest).1,
       (recordOutcomesFrom found result (k + 1) rest).2)
    else
      ((recordOutcomesFrom found result (k + 1) rest).1,
       found.getD k ("", "") :: (recordOutcomesFrom found result (k + 1) rest).2)

/-- The action-stage loop of `process_files`, from completion count
zero: the resulting `(processed_files, failed_files)`. -/
def recordOutcomes (found : List FoundFile) (order : List Nat) (result : Nat → Bool) :
    List FoundFile × List FoundFile :=
  recordOutcomesFrom found result 0 order

/-- The counts logged by the summary block at the end of
`process_files`. -/
structure Summary where
  requested : Nat
  found : Nat
  succeeded : Nat
  failed : Nat
deriving DecidableEq

/-- The environment of one `process_files` run: the file-read, regex
and subprocess oracles, the completion orders of the two pools, and
the per-future action results. -/
structure RunEnv where
  readFile : String → Option String
  compile : String → Option (String → Bool)
  provider : String → ProviderResult
  searchOrder : List Nat
  actionOrder : List Nat
  actionOk : Nat → Bool

/-- Observable outcome of one `process_files` run. -/
structure RunOutcome where
  filenames : List String
  searchSubmitted : Nat
  foundFiles : List FoundFile
  processedFiles : List FoundFile
  failedFiles : List FoundFile
  actions : List FsAction
  summary : Option Summary
  noFilesMsg : Bool
  invalidRegex : Bool
  noMatchesMsg : Bool

/-- Embedding of `EverythingSearcher.process_files`.  It reads the
filename list (early return with the `no_files` message when empty),
validates the regex once (early return with the `invalid_regex`
message when `re.compile` raises), submits one search future per
filename and extends `found_files` in completion order, returns with
the `no_matches` message when nothing was found, dispatches the delete
pool when `delete_mode` is set and otherwise the copy/move pool when a
copy or move path is set, and finally logs the summary counts.
`actions` collects the per-file filesystem operations of the dispatched
pool (raise-free traces, appended in submission order). -/
def processFilesModel (cfg : Config) (env : RunEnv) : RunOutcome :=
  let filenames := read_input_file cfg env.readFile
  if filenames.isEmpty then
    { filenames := filenames, searchSubmitted := 0, foundFiles := [],
      processedFiles := [], failedFiles := [], actions := [], summary := none,
      noFilesMsg := true, invalidRegex := false, noMatchesMsg := false }
  else if truthyS cfg.regex_filter && (env.compile (cfg.regex_filter.getD "")).isNone then
    { filenames := filenames, searchSubmitted := 0, foundFiles := [],
      processedFiles := [], failedFiles := [], actions := [], summary := none,
      noFilesMsg := false, invalidRegex := true, noMatchesMsg := false }
  else
    let found := (env.searchOrder.map (fun i =>
      search_single_file env.compile (filenames.getD i "") cfg.regex_filter
        (env.provider (filenames.getD i "")))).flatten
    if found.isEmpty then
      { filenames := filenames, searchSubmitted := filenames.length, foundFiles := [],
        processedFiles := [], failedFiles := [], actions := [], summary := none,
        noFilesMsg := false, invalidRegex := false, noMatchesMsg := true }
    else
      let dispatched := cfg.delete_mode || (truthyS cfg.copy_path || truthyS cfg.move_path)
      let pf := if dispatched then recordOutcomes found env.actionOrder env.actionOk else ([], [])
      let acts := if dispatched then (found.map (process_file_actions cfg)).flatten else []
      { filenames := filenames, searchSubmitted := filenames.length, foundFiles := found,
        processedFiles := pf.1, failedFiles := pf.2, actions := acts,
        summary := some { requested := filenames.length, found := found.length,
                          succeeded := pf.1.length, failed := pf.2.length },
        noFilesMsg := false, invalidRegex := false, noMatchesMsg := false }

/-! ### Helper lemmas -/

theorem recordOutcomesFrom_lengths (found : List FoundFile) (result : Nat → Bool) :
    ∀ (order : List Nat) (k : Nat),
      (recordOutcomesFrom found result k order).1.length
        + (recordOutcomesFrom found result k order).2.length = order.length := by
  intro order
  induction order with
  | nil => intro k; simp [recordOutcomesFrom]
  | cons i rest ih =>
    intro k
    have h1 := ih (k + 1)
    simp only [recordOutcomesFrom]
    by_cases h : result i <;> simp [h] <;> omega

theorem getD_cons_drop {α : Type} (d : α) :
    ∀ (l : List α) (k : Nat), k < l.length → l.drop k = l.getD k d :: l.drop (k + 1) := by
  intro l
  induction l with
  | nil => intro k h; simp at h
  | cons x xs ih =>
    intro k h
    cases k with
    | zero => simp
    | succ k =>
      simp only [List.drop_succ_cons, List.getD_cons_succ]
      exact ih k (by simpa using Nat.lt_of_succ_lt_succ h)

theorem recordOutcomesFrom_perm (found : List FoundFile) (result : Nat → Bool) :
    ∀ (order : List Nat) (k : Nat), order.length = found.length - k → k ≤ found.length →
      ((recordOutcomesFrom found result k order).1
        ++ (recordOutcomesFrom found result k order).2).Perm (found.drop k) := by
  intro order
  induction order with
  | nil =>
    intro k hlen hk
    have hlen0 : (0 : Nat) = found.length - k := by simpa using hlen
    have : found.length ≤ k := by omega
    simp [recordOutcomesFrom, List.drop_eq_nil_of_le this]
  | cons i rest ih =>
    intro k hlen hk
    have hlen1 : rest.length + 1 = found.length - k := by simpa using hlen
    have hklt : k < found.length := by omega
    have hdrop := getD_cons_drop ("", "") found k hklt
    have hrest := ih (k + 1) (by omega) (by omega)
    simp only [recordOutcomesFrom]
    by_cases h : result i
    · simp only [h, if_true]
      rw [hdrop, List.cons_append]
      exact hrest.cons _
    · simp only [h, Bool.false_eq_true, if_false]
      rw [hdrop]
      exact List.perm_middle.trans (hrest.cons _)

theorem recordOutcomesFrom_order_blind (found : List FoundFile) (result : Nat → Bool) :
    ∀ (order₁ order₂ : List Nat) (k : Nat), order₁.map result = order₂.map result →
      recordOutcomesFrom found result k order₁ = recordOutcomesFrom found result k order₂ := by
  intro order₁
  induction order₁ with
  | nil =>
    intro order₂ k h
    cases order₂ with
    | nil => rfl
    | cons j r => simp at h
  | cons i rest ih =>
    intro order₂ k h
    cases order₂ with
    | nil => simp at h
    | cons j r =>
      simp only [List.map_cons, List.cons.injEq] at h
      simp only [recordOutcomesFrom, h.1, ih r (k + 1) h.2]

/-! ### Claim theorems -/

/-- C5: for every filename and every valid regex filter, every pair
returned by `search_single_file` carries the requested filename and a
path on which `regex.search` is truthy (search, not full-match,
semantics), and the candidate paths are the stripped non-empty lines
of the provider's standard output. -/
theorem c5_search_results_match_regex
    (compile : String → Option (String → Bool)) (filename p : String)
    (rx : String → Bool) (res : ProviderResult)
    (hp : p ≠ "") (hc : compile p = some rx) :
    (∀ fp ∈ search_single_file compile filename (some p) res,
        fp.1 = filename ∧ rx fp.2 = true) ∧
    (∀ (out : String) (fp : String × String),
        fp ∈ search_single_file compile filename (some p) (ProviderResult.ok 0 out) →
        fp.2 ∈ stripNonBlankLines out) := by
  have htruthy : truthyS (some p) = true := by simp [truthyS, hp]
  constructor
  · intro fp hfp
    cases res with
    | exn => simp [search_single_file] at hfp
    | ok rc out =>
      by_cases hrc : rc = 0
      · simp only [search_single_file, hrc, if_true, htruthy, Option.getD_some, hc,
          List.mem_map, List.mem_filter] at hfp
        obtain ⟨path, ⟨hmem, hrx⟩, heq⟩ := hfp
        subst heq
        exact ⟨rfl, hrx⟩
      · simp [search_single_file, hrc] at hfp
  · intro out fp hfp
    simp only [search_single_file, if_true, htruthy, Option.getD_some, hc,
      List.mem_map, List.mem_filter] at hfp
    obtain ⟨path, ⟨hmem, hrx⟩, heq⟩ := hfp
    subst heq
    exact hmem

/-- Witness for C5 at a concrete provider output and matcher. -/
theorem c5_search_results_match_regex_witness :
    ("f", "C:\\ab").1 = "f" ∧ (fun path => path == "C:\\ab") "C:\\ab" = true :=
  (c5_search_results_match_regex (fun _ => some (fun path => path == "C:\\ab"))
      "f" "x" (fun path => path == "C:\\ab") (ProviderResult.ok 0 "C:\\ab\nC:\\cd")
      (by decide) rfl).1 ("f", "C:\\ab") (by decide)

/-- C6: for every filename, a provider invocation that raises or exits
non-zero makes `search_single_file` return the empty list (zero pairs
for that filename). -/
theorem c6_provider_failure_yields_no_pairs
    (compile : String → Option (String → Bool)) (filename : String)
    (pat : Option String) (rc : Int) (out : String) :
    search_single_file compile filename pat ProviderResult.exn = [] ∧
    (rc ≠ 0 → search_single_file compile filename pat (ProviderResult.ok rc out) = []) := by
  refine ⟨rfl, fun h => ?_⟩
  simp [search_single_file, h]

/-- Witness for C6 at a concrete non-zero exit code. -/
theorem c6_provider_failure_yields_no_pairs_witness :
    search_single_file (fun _ => none) "a.txt" none ProviderResult.exn = [] ∧
    search_single_file (fun _ => none) "a.txt" none (ProviderResult.ok 1 "C:\\a.txt") = [] :=
  ⟨(c6_provider_failure_yields_no_pairs (fun _ => none) "a.txt" none 1 "C:\\a.txt").1,
   (c6_provider_failure_yields_no_pairs (fun _ => none) "a.txt" none 1 "C:\\a.txt").2
     (by decide)⟩

/-- C7: with folder-structure preservation enabled (and delete mode
off), every copy performed by `process_file` goes to the destination
root joined with the source path stripped of its drive letter and
leading separators, preceded by creation of the intermediate
directories, and likewise for move; concretely, source
`C:\a\b\file.txt` under root `D:\out` yields `D:\out\a\b\file.txt`. -/
theorem c7_structure_preserving_destination
    (cfg : Config) (fn src : String)
    (hd : cfg.delete_mode = false) (hm : cfg.match_folder_structure = true) :
    (∀ root, cfg.copy_path = some root → root ≠ "" →
      FsAction.makedirs (ntDirname (ntJoin root (lstripBackslash (splitdrive src).2)))
          ∈ process_file_actions cfg (fn, src) ∧
      FsAction.copy2 src (ntJoin root (lstripBackslash (splitdrive src).2))
          ∈ process_file_actions cfg (fn, src) ∧
      ∀ x y, FsAction.copy2 x y ∈ process_file_actions cfg (fn, src) →
        x = src ∧ y = ntJoin root (lstripBackslash (splitdrive src).2)) ∧
    (∀ root, cfg.move_path = some root → root ≠ "" →
      FsAction.makedirs (ntDirname (ntJoin root (lstripBackslash (splitdrive src).2)))
          ∈ process_file_actions cfg (fn, src) ∧
      FsAction.move src (ntJoin root (lstripBackslash (splitdrive src).2))
          ∈ process_file_actions cfg (fn, src) ∧
      ∀ x y, FsAction.move x y ∈ process_file_actions cfg (fn, src) →
        x = src ∧ y = ntJoin root (lstripBackslash (splitdrive src).2)) ∧
    ntJoin "D:\\out" (lstripBackslash (splitdrive "C:\\a\\b\\file.txt").2)
      = "D:\\out\\a\\b\\file.txt" := by
  refine ⟨?_, ?_, by decide⟩
  · intro root hroot hne
    have htruthy : truthyS (some root) = true := by simp [truthyS, hne]
    simp only [process_file_actions, hd, Bool.false_eq_true, if_false, hroot, htruthy, if_true,
      hm, Option.getD_some, List.mem_append]
    refine ⟨Or.inl (by simp), Or.inl (by simp), ?_⟩
    intro x y hxy
    rcases hxy with h | h
    · simp at h
      exact ⟨h.1, h.2⟩
    · by_cases hmv : truthyS cfg.move_path = true
      · simp [hmv, hm] at h
      · simp [Bool.not_eq_true] at hmv
        simp [hmv] at h
  · intro root hroot hne
    have htruthy : truthyS (some root) = true := by simp [truthyS, hne]
    simp only [process_file_actions, hd, Bool.false_eq_true, if_false, hroot, htruthy, if_true,
      hm, Option.getD_some, List.mem_append]
    refine ⟨Or.inr (by simp), Or.inr (by simp), ?_⟩
    intro x y hxy
    rcases hxy with h | h
    · by_cases hcp : truthyS cfg.copy_path = true
      · simp [hcp, hm] at h
      · simp [Bool.not_eq_true] at hcp
        simp [hcp] at h
    · simp at h
      exact ⟨h.1, h.2⟩

/-- Witness for C7 at a concrete configuration and source path. -/
theorem c7_structure_preserving_destination_witness :
    FsAction.copy2 "C:\\a\\b\\file.txt"
        (ntJoin "D:\\out" (lstripBackslash (splitdrive "C:\\a\\b\\file.txt").2))
      ∈ process_file_actions
          { copy_path := some "D:\\out", match_folder_structure := true, delete_mode := false }
          ("file.txt", "C:\\a\\b\\file.txt") :=
  ((c7_structure_preserving_destination
      { copy_path := some "D:\\out", match_folder_structure := true, delete_mode := false }
      "file.txt" "C:\\a\\b\\file.txt" rfl rfl).1 "D:\\out" rfl (by decide)).2.1

/-- C8: with folder-structure preservation disabled (and delete mode
off), every copy and every move performed by `process_file` goes to
the respective destination root joined with the originally requested
filename — the first component of the found pair — not the basename
of the found source path; concretely, the pair
`("file.txt", "C:\x\other.txt")` under root `D:\out` goes to
`D:\out\file.txt`, not `D:\out\other.txt`. -/
theorem c8_flat_destination_uses_requested_name
    (cfg : Config) (fn src : String)
    (hd : cfg.delete_mode = false) (hm : cfg.match_folder_structure = false) :
    (∀ root, cfg.copy_path = some root → root ≠ "" →
      FsAction.copy2 src (ntJoin root fn) ∈ process_file_actions cfg (fn, src) ∧
      ∀ x y, FsAction.copy2 x y ∈ process_file_actions cfg (fn, src) →
        x = src ∧ y = ntJoin root fn) ∧
    (∀ root, cfg.move_path = some root → root ≠ "" →
      FsAction.move src (ntJoin root fn) ∈ process_file_actions cfg (fn, src) ∧
      ∀ x y, FsAction.move x y ∈ process_file_actions cfg (fn, src) →
        x = src ∧ y = ntJoin root fn) ∧
    (ntJoin "D:\\out" "file.txt" = "D:\\out\\file.txt" ∧
     ntBasename "C:\\x\\other.txt" = "other.txt" ∧
     ntJoin "D:\\out" "file.txt" ≠ ntJoin "D:\\out" (ntBasename "C:\\x\\other.txt")) := by
  refine ⟨?_, ?_, by decide, by decide, by decide⟩
  · intro root hroot hne
    have htruthy : truthyS (some root) = true := by simp [truthyS, hne]
    simp only [process_file_actions, hd, Bool.false_eq_true, if_false, hroot, htruthy, if_true,
      hm, Option.getD_some, List.mem_append]
    refine ⟨Or.inl (by simp), ?_⟩
    intro x y hxy
    rcases hxy with h | h
    · simp at h
      exact ⟨h.1, h.2⟩
    · by_cases hmv : truthyS cfg.move_path = true
      · simp [hmv, hm] at h
      · simp [Bool.not_eq_true] at hmv
        simp [hmv] at h
  · intro root hroot hne
    have htruthy : truthyS (some root) = true := by simp [truthyS, hne]
    simp only [process_file_actions, hd, Bool.false_eq_true, if_false, hroot, htruthy, if_true,
      hm, Option.getD_some, List.mem_append]
    refine ⟨Or.inr (by simp), ?_⟩
    intro x y hxy
    rcases hxy with h | h
    · by_cases hcp : truthyS cfg.copy_path = true
      · simp [hcp, hm] at h
      · simp [Bool.not_eq_true] at hcp
        simp [hcp] at h
    · simp at h
      exact ⟨h.1, h.2⟩

/-- Concrete flat-layout configuration with both a copy and a move
destination. -/
def cfgFlat : Config :=
  { copy_path := some "D:\\out", move_path := some "E:\\mv",
    match_folder_structure := false, delete_mode := false }

/-- Witness for C8 at a concrete configuration and found pair,
covering both the copy and the move destination. -/
theorem c8_flat_destination_uses_requested_name_witness :
    FsAction.copy2 "C:\\x\\other.txt" (ntJoin "D:\\out" "file.txt")
      ∈ process_file_actions cfgFlat ("file.txt", "C:\\x\\other.txt") ∧
    FsAction.move "C:\\x\\other.txt" (ntJoin "E:\\mv" "file.txt")
      ∈ process_file_actions cfgFlat ("file.txt", "C:\\x\\other.txt") :=
  ⟨((c8_flat_destination_uses_requested_name cfgFlat
      "file.txt" "C:\\x\\other.txt" rfl rfl).1 "D:\\out" rfl (by decide)).1,
   ((c8_flat_destination_uses_requested_name cfgFlat
      "file.txt" "C:\\x\\other.txt" rfl rfl).2.1 "E:\\mv" rfl (by decide)).1⟩

/-- Concrete run: one filename, delete mode with a copy destination
also configured, provider finds one file, the action fails. -/
def cfgDel : Config :=
  { input_text := some "a", delete_mode := true, copy_path := some "D:\\out" }

/-- Concrete environment for `cfgDel`: one search future, one action
future, the action returns `False`. -/
def envOne : RunEnv :=
  { readFile := fun _ => none, compile := fun _ => none,
    provider := fun _ => ProviderResult.ok 0 "C:\\x\\a.txt\n",
    searchOrder := [0], actionOrder := [0], actionOk := fun _ => false }

/-- C1: when delete mode is active, every filesystem action of the run
is a remove — no copy and no move is performed on any found file, even
when copy/move destinations are also configured. -/
theorem c1_delete_mode_performs_only_removes (cfg : Config) (env : RunEnv)
    (hd : cfg.delete_mode = true) :
    ∀ a ∈ (processFilesModel cfg env).actions, ∃ p, a = FsAction.remove p := by
  intro a ha
  simp only [processFilesModel] at ha
  split at ha
  · simp at ha
  · split at ha
    · simp at ha
    · split at ha
      · simp at ha
      · simp only [hd, Bool.true_or, if_true, List.mem_flatten, List.mem_map] at ha
        obtain ⟨l, ⟨fi, hfi, rfl⟩, hal⟩ := ha
        simp only [process_file_actions, hd, if_true, List.mem_singleton] at hal
        exact ⟨fi.2, hal⟩

/-- Witness for C1 on the concrete delete-mode run. -/
theorem c1_delete_mode_performs_only_removes_witness :
    ∃ p, FsAction.remove "C:\\x\\a.txt" = FsAction.remove p :=
  c1_delete_mode_performs_only_removes cfgDel envOne rfl
    (FsAction.remove "C:\\x\\a.txt") (by decide)

/-- Concrete run with a duplicated input line. -/
def cfgDup : Config := { input_text := some "a\na" }

/-- Concrete environment for `cfgDup`: two search futures, provider
invocation raises. -/
def envDup : RunEnv :=
  { readFile := fun _ => none, compile := fun _ => none,
    provider := fun _ => ProviderResult.exn,
    searchOrder := [0, 1], actionOrder := [], actionOk := fun _ => false }

/-- Counterexample to C2 as stated: with input text `"a\na"` the run
submits two search units of work, while the number of DISTINCT
non-blank stripped input lines is one — duplicates are not
collapsed. -/
theorem c2_counterexample_duplicates_not_collapsed :
    (processFilesModel cfgDup envDup).searchSubmitted = 2 ∧
    ((read_input_file cfgDup envDup.readFile).dedup).length = 1 ∧
    (processFilesModel cfgDup envDup).searchSubmitted ≠
      ((read_input_file cfgDup envDup.readFile).dedup).length := by
  decide

/-- C2 (amended): for every input that reaches the search stage, the
number of search units of work submitted equals the number of
non-blank input lines after stripping whitespace, counted with
multiplicity (duplicate lines each get their own search). -/
theorem c2_search_units_eq_nonblank_lines (cfg : Config) (env : RunEnv)
    (h1 : read_input_file cfg env.readFile ≠ [])
    (h2 : (truthyS cfg.regex_filter
            && (env.compile (cfg.regex_filter.getD "")).isNone) = false) :
    (processFilesModel cfg env).searchSubmitted
      = (read_input_file cfg env.readFile).length := by
  have h1e : (read_input_file cfg env.readFile).isEmpty = false := by
    simpa [List.isEmpty_iff] using h1
  simp only [processFilesModel, h1e, Bool.false_eq_true, if_false, h2]
  split <;> rfl

/-- Witness for C2 (amended) on a concrete three-line input. -/
theorem c2_search_units_eq_nonblank_lines_witness :
    (processFilesModel { input_text := some " a \nb\n\na" } envDup).searchSubmitted
      = (read_input_file { input_text := some " a \nb\n\na" } envDup.readFile).length :=
  c2_search_units_eq_nonblank_lines { input_text := some " a \nb\n\na" } envDup
    (by decide) (by decide)

/-- Concrete run whose single search yields no matches. -/
def cfgNoMatch : Config := { input_text := some "report.docx" }

/-- Concrete environment for `cfgNoMatch`: the provider exits zero
with empty output. -/
def envNoMatch : RunEnv :=
  { readFile := fun _ => none, compile := fun _ => none,
    provider := fun _ => ProviderResult.ok 0 "",
    searchOrder := [0], actionOrder := [], actionOk := fun _ => true }

/-- Counterexample to C3 as stated: a run with a non-empty filename
list that passes regex validation but finds zero matches returns at
the `no_matches` message, before the summary block — no summary is
emitted. -/
theorem c3_counterexample_no_matches_skips_summary :
    read_input_file cfgNoMatch envNoMatch.readFile ≠ [] ∧
    (processFilesModel cfgNoMatch envNoMatch).invalidRegex = false ∧
    (processFilesModel cfgNoMatch envNoMatch).noMatchesMsg = true ∧
    (processFilesModel cfgNoMatch envNoMatch).summary = none := by
  decide

/-- C3 (amended): every run that passes regex validation, reads a
non-empty filename list and finds at least one file ends by emitting
the summary with the real requested/found/succeeded/failed counts,
even when every individual file action failed. -/
theorem c3_summary_always_emitted (cfg : Config) (env : RunEnv)
    (h1 : read_input_file cfg env.readFile ≠ [])
    (h2 : (truthyS cfg.regex_filter
            && (env.compile (cfg.regex_filter.getD "")).isNone) = false)
    (h3 : (processFilesModel cfg env).foundFiles ≠ []) :
    (processFilesModel cfg env).summary =
      some { requested := (processFilesModel cfg env).filenames.length,
             found := (processFilesModel cfg env).foundFiles.length,
             succeeded := (processFilesModel cfg env).processedFiles.length,
             failed := (processFilesModel cfg env).failedFiles.length } := by
  have h1e : (read_input_file cfg env.readFile).isEmpty = false := by
    simpa [List.isEmpty_iff] using h1
  revert h3
  simp only [processFilesModel, h1e, Bool.false_eq_true, if_false, h2]
  split
  · intro h3
    simp at h3
  · intro _
    rfl

/-- Witness for C3 (amended) on the concrete run whose only action
fails. -/
theorem c3_summary_always_emitted_witness :
    (processFilesModel cfgDel envOne).summary =
      some { requested := (processFilesModel cfgDel envOne).filenames.length,
             found := (processFilesModel cfgDel envOne).foundFiles.length,
             succeeded := (processFilesModel cfgDel envOne).processedFiles.length,
             failed := (processFilesModel cfgDel envOne).failedFiles.length } :=
  c3_summary_always_emitted cfgDel envOne (by decide) (by decide) (by decide)

/-- C4: when the supplied regex filter fails to compile at the single
up-front validation, the run reports the validation error and returns:
zero search units of work are submitted, nothing is found, no action
runs and no summary is emitted. -/
theorem c4_invalid_regex_blocks_search (cfg : Config) (env : RunEnv)
    (ht : truthyS cfg.regex_filter = true)
    (hc : env.compile (cfg.regex_filter.getD "") = none) :
    (processFilesModel cfg env).searchSubmitted = 0 ∧
    (read_input_file cfg env.readFile ≠ [] →
      (processFilesModel cfg env).invalidRegex = true ∧
      (processFilesModel cfg env).summary = none ∧
      (processFilesModel cfg env).foundFiles = [] ∧
      (processFilesModel cfg env).actions = []) := by
  simp only [processFilesModel, ht, hc, Option.isNone_none, Bool.and_self, if_true]
  split
  · rename_i hemp
    refine ⟨rfl, fun hne => absurd (List.isEmpty_iff.mp hemp) hne⟩
  · exact ⟨rfl, fun _ => ⟨rfl, rfl, rfl, rfl⟩⟩

/-- Concrete run with a malformed regex filter. -/
def cfgBadRx : Config := { input_text := some "a", regex_filter := some "(" }

/-- Concrete environment for `cfgBadRx`: `re.compile` raises. -/
def envBadRx : RunEnv :=
  { readFile := fun _ => none, compile := fun _ => none,
    provider := fun _ => ProviderResult.ok 0 "C:\\x\\a.txt\n",
    searchOrder := [0], actionOrder := [], actionOk := fun _ => true }

/-- Witness for C4 on the concrete malformed-regex run. -/
theorem c4_invalid_regex_blocks_search_witness :
    (processFilesModel cfgBadRx envBadRx).searchSubmitted = 0 ∧
    (processFilesModel cfgBadRx envBadRx).invalidRegex = true :=
  ⟨(c4_invalid_regex_blocks_search cfgBadRx envBadRx (by decide) rfl).1,
   ((c4_invalid_regex_blocks_search cfgBadRx envBadRx (by decide) rfl).2 (by decide)).1⟩

/-- C9: whenever an action mode is configured (delete, or a copy or
move destination) and each action future completes exactly once, the
final counts satisfy `succeeded + failed = found`. -/
theorem c9_succeeded_plus_failed_eq_found (cfg : Config) (env : RunEnv)
    (hact : (cfg.delete_mode || (truthyS cfg.copy_path || truthyS cfg.move_path)) = true)
    (hord : env.actionOrder.length = (processFilesModel cfg env).foundFiles.length) :
    (processFilesModel cfg env).processedFiles.length
      + (processFilesModel cfg env).failedFiles.length
      = (processFilesModel cfg env).foundFiles.length := by
  revert hord
  simp only [processFilesModel]
  split
  · intro _; rfl
  · split
    · intro _; rfl
    · split
      · intro _; rfl
      · simp only [hact, if_true]
        intro hord
        rw [recordOutcomes, recordOutcomesFrom_lengths]
        exact hord

/-- Witness for C9 on the concrete delete-mode run. -/
theorem c9_succeeded_plus_failed_eq_found_witness :
    (processFilesModel cfgDel envOne).processedFiles.length
      + (processFilesModel cfgDel envOne).failedFiles.length
      = (processFilesModel cfgDel envOne).foundFiles.length :=
  c9_succeeded_plus_failed_eq_found cfgDel envOne (by decide) (by decide)

/-- C10: the action-stage bookkeeping selects the recorded entry by
completion count, not by the identity of the completed future: the
outcome depends on the completion order only through the sequence of
future results, every element of `found_files` is recorded exactly
once across `processed_files` and `failed_files`, and which file is
attributed to a success or failure genuinely varies with completion
order. -/
theorem c10_attribution_by_completion_count
    (found : List FoundFile) (order order₂ : List Nat) (result : Nat → Bool)
    (hlen : order.length = found.length) :
    ((recordOutcomes found order result).1
      ++ (recordOutcomes found order result).2).Perm found ∧
    (order.map result = order₂.map result →
      recordOutcomes found order result = recordOutcomes found order₂ result) ∧
    (∃ (fd : List FoundFile) (o₁ o₂ : List Nat) (r : Nat → Bool),
      o₁.Perm (List.range fd.length) ∧ o₂.Perm (List.range fd.length) ∧
      (recordOutcomes fd o₁ r).1 ≠ (recordOutcomes fd o₂ r).1) := by
  refine ⟨?_, ?_, ?_⟩
  · have h := recordOutcomesFrom_perm found result order 0 (by omega) (Nat.zero_le _)
    simpa [recordOutcomes] using h
  · intro hmap
    exact recordOutcomesFrom_order_blind found result order order₂ 0 hmap
  · refine ⟨[("a", "C:\\pa"), ("b", "C:\\pb")], [0, 1], [1, 0],
      fun i => i == 0, by decide, by decide, by decide⟩

/-- Witness for C10 on a concrete two-file run completed in reverse
order. -/
theorem c10_attribution_by_completion_count_witness :
    ((recordOutcomes [("a", "C:\\pa"), ("b", "C:\\pb")] [1, 0] (fun i => i == 0)).1
      ++ (recordOutcomes [("a", "C:\\pa"), ("b", "C:\\pb")] [1, 0] (fun i => i == 0)).2).Perm
      [("a", "C:\\pa"), ("b", "C:\\pb")] :=
  (c10_attribution_by_completion_count [("a", "C:\\pa"), ("b", "C:\\pb")] [1, 0] [1, 0]
    (fun i => i == 0) (by decide)).1

end EverythingBatch
